import Mathlib

/-!
Shallow embedding of the `assert_that!` macro of `src/src/lib.rs` (crate
`doubts`).  The macro has three arms:

1. comparison arm `($e: expr, has $i:ident $tt:tt $n: expr)`, expanding to
   `{ let x = $e.$i(); assert!(x $tt $n, "Expected `{}`={:?} to have {} {} {},
   but {} = {}.", stringify!($e), $e, stringify!($i), stringify!($tt), $n,
   stringify!($i), x) }`;
2. zero-argument predicate arm `($e: expr, $i:ident)`, expanding to
   `assert!($e.$i(), "Expected `{}`={:?} to be {}.", stringify!($e), $e,
   if method_name.starts_with("is_") {&method_name[3..]} else {method_name})`;
3. multi-argument predicate arm `($e: expr, $i:ident $($n: expr),+)`,
   expanding to `assert!($e.$i($($n),+), "Expected `{}`={:?} to {} {}.",
   stringify!($e), $e, if method_name.ends_with('s')
   {&method_name[..method_name.len()-1]} else {method_name},
   &([$($n.to_string()),+]).join(","))`.

`assert!(cond, fmt, args…)` evaluates `cond` first and evaluates the format
arguments, left to right, only when `cond` is false.  Expressions are embedded
as state-threading functions `σ → α × σ` so that the number and order of
evaluations of each source expression is observable in the state.  The
macro-arm *matching* (which arm a token shape selects) is embedded separately
as an ordered match over a small token model.
-/

set_option autoImplicit false

namespace Doubts

/-- State-threading embedding of a Rust expression evaluation: `σ` records
side effects, `α` is the value produced. -/
def StE (σ α : Type) : Type := σ → α × σ

/-- Display transform of the zero-argument predicate arm:
`if method_name.starts_with("is_") {&method_name[3..]} else {method_name}`.
A UTF-8 byte-prefix test against `"is_"` coincides with the character-prefix
test, and slicing the first 3 bytes off a string that passes it removes
exactly the three one-byte characters `i`, `s`, `_`. -/
def strip_is (name : String) : String :=
  if "is_".data.isPrefixOf name.data then String.mk (name.data.drop 3) else name

/-- Display transform of the multi-argument predicate arm:
`if method_name.ends_with('s') {&method_name[..method_name.len()-1]} else
{method_name}`.  `ends_with('s')` tests the final character, and removing the
final byte of a string whose final character is the one-byte `'s'` removes
exactly that character. -/
def strip_s (name : String) : String :=
  if name.data.getLast? = some 's' then String.mk (name.data.dropLast) else name

/-- Call-site data of the comparison arm `($e: expr, has $i:ident $tt:tt
$n: expr)`: the subject `$e` and expected `$n` as effectful expressions, the
accessor call `.$i()` on the subject value as an effectful method, the
`stringify!` token texts, the subject's `{:?}` (Debug) rendering `dbg`, and
the `{}` (Display) rendering `disp` of property values. -/
structure CmpForm (σ α ν : Type) where
  subjSrc : String
  subj : StE σ α
  accName : String
  acc : α → StE σ ν
  opSrc : String
  op : ν → ν → Bool
  expd : StE σ ν
  dbg : α → String
  disp : ν → String

/-- Expansion of the comparison arm: bind `x = $e.$i()`, evaluate the
condition `x $tt $n`, and on failure evaluate the format arguments `$e`
(Debug) and `$n` (Display) in source order, reusing `x` for the actual
value. -/
def runCmp {σ α ν : Type} (f : CmpForm σ α ν) : StE σ (Option String) := fun s =>
  let p1 := f.subj s
  let p2 := f.acc p1.1 p1.2
  let p3 := f.expd p2.2
  if f.op p2.1 p3.1 then (none, p3.2)
  else
    let p4 := f.subj p3.2
    let p5 := f.expd p4.2
    (some ("Expected `" ++ f.subjSrc ++ "`=" ++ f.dbg p4.1 ++ " to have " ++
        f.accName ++ " " ++ f.opSrc ++ " " ++ f.disp p5.1 ++ ", but " ++
        f.accName ++ " = " ++ f.disp p2.1 ++ "."), p5.2)

/-- Call-site data of the zero-argument predicate arm `($e: expr, $i:ident)`. -/
structure Pred0Form (σ α : Type) where
  subjSrc : String
  subj : StE σ α
  name : String
  pred : α → StE σ Bool
  dbg : α → String

/-- Expansion of the zero-argument predicate arm: evaluate `$e.$i()`, and on
failure evaluate the format argument `$e` (Debug) and render the
`is_`-stripped method name. -/
def runPred0 {σ α : Type} (f : Pred0Form σ α) : StE σ (Option String) := fun s =>
  let p1 := f.subj s
  let p2 := f.pred p1.1 p1.2
  if p2.1 then (none, p2.2)
  else
    let p3 := f.subj p2.2
    (some ("Expected `" ++ f.subjSrc ++ "`=" ++ f.dbg p3.1 ++ " to be " ++
        strip_is f.name ++ "."), p3.2)

/-- Call-site data of the multi-argument predicate arm
`($e: expr, $i:ident $($n: expr),+)`: the argument expressions `$n` as a list
of effectful expressions, and `tostr` the arguments' `to_string` (Display)
rendering. -/
structure PredNForm (σ α ν : Type) where
  subjSrc : String
  subj : StE σ α
  name : String
  pred : α → List ν → StE σ Bool
  args : List (StE σ ν)
  dbg : α → String
  tostr : ν → String

/-- Left-to-right evaluation of an argument list, as in a Rust call or array
literal. -/
def evalArgs {σ ν : Type} : List (StE σ ν) → StE σ (List ν)
  | [], s => ([], s)
  | a :: rest, s =>
    let p := a s
    let q := evalArgs rest p.2
    (p.1 :: q.1, q.2)

/-- Expansion of the multi-argument predicate arm: evaluate
`$e.$i($($n),+)` (subject, then arguments left to right, then the call), and
on failure evaluate the format arguments: `$e` (Debug), then the array
`[$($n.to_string()),+]` — which re-evaluates every `$n` left to right —
joined with `","`. -/
def runPredN {σ α ν : Type} (f : PredNForm σ α ν) : StE σ (Option String) := fun s =>
  let p1 := f.subj s
  let p2 := evalArgs f.args p1.2
  let p3 := f.pred p1.1 p2.1 p2.2
  if p3.1 then (none, p3.2)
  else
    let p4 := f.subj p3.2
    let p5 := evalArgs f.args p4.2
    (some ("Expected `" ++ f.subjSrc ++ "`=" ++ f.dbg p4.1 ++ " to " ++
        strip_s f.name ++ " " ++
        String.intercalate "," (p5.1.map f.tostr) ++ "."), p5.2)

/-! ### Token-level model of macro-arm matching

`macro_rules`-style dispatch: the token tree sequence following `$e: expr,`
is matched against the three arm patterns in source order and the first
matching arm is selected.  The token model covers the expression fragment
relevant to the claims: identifiers, numeric literals, single operator
tokens, commas, and binary operator expressions (a Rust `$n:expr` matcher
consumes a maximal expression, so `len <= 2` is one expression). -/

/-- A single token tree at the call site. -/
inductive MTok
  | ident (s : String)
  | oper (s : String)
  | litNat (n : Nat)
  | comma
deriving DecidableEq, Repr

/-- Expressions of the modelled fragment. -/
inductive MExpr
  | var (s : String)
  | lit (n : Nat)
  | bin (o : String) (l r : MExpr)
deriving DecidableEq, Repr

/-- `stringify!` of a single token tree. -/
def ttStr : MTok → String
  | .ident s => s
  | .oper s => s
  | .litNat n => toString n
  | .comma => ","

/-- Parse one maximal expression from a token list (as the `$n:expr` macro
matcher does on this fragment), returning it with the unconsumed tokens. -/
def parseExpr : List MTok → Option (MExpr × List MTok)
  | .ident s :: .oper o :: rest =>
    match parseExpr rest with
    | some (e, r2) => some (.bin o (.var s) e, r2)
    | none => none
  | .ident s :: rest => some (.var s, rest)
  | .litNat n :: .oper o :: rest =>
    match parseExpr rest with
    | some (e, r2) => some (.bin o (.lit n) e, r2)
    | none => none
  | .litNat n :: rest => some (.lit n, rest)
  | _ => none

/-- Parse a token list as exactly one expression, consuming all tokens. -/
def parseFullExpr (ts : List MTok) : Option MExpr :=
  match parseExpr ts with
  | some (e, []) => some e
  | _ => none

/-- Split a token list at top-level commas (the separator of `$($n:expr),+`;
commas cannot occur inside an expression of this fragment). -/
def splitCommas : List MTok → List (List MTok)
  | [] => [[]]
  | .comma :: rest => [] :: splitCommas rest
  | t :: rest =>
    match splitCommas rest with
    | [] => [[t]]
    | g :: gs => (t :: g) :: gs

/-- Match `$($n:expr),+` against a token list: one or more comma-separated
expressions consuming all tokens. -/
def parseExprs (ts : List MTok) : Option (List MExpr) :=
  (splitCommas ts).mapM parseFullExpr

/-- The check form an invocation resolves to. -/
inductive Form
  | cmp (acc : String) (op : String) (expd : MExpr)
  | pred0 (name : String)
  | predN (name : String) (args : List MExpr)
deriving DecidableEq, Repr

/-- First arm pattern `has $i:ident $tt:tt $n: expr`: the literal token
`has`, an identifier, any single token tree, then one expression consuming
the rest. -/
def matchArm1 : List MTok → Option Form
  | .ident "has" :: .ident i :: t :: rest =>
    match parseFullExpr rest with
    | some e => some (.cmp i (ttStr t) e)
    | none => none
  | _ => none

/-- Second arm pattern `$i:ident`: a single identifier token. -/
def matchArm2 : List MTok → Option Form
  | [.ident i] => some (.pred0 i)
  | _ => none

/-- Third arm pattern `$i:ident $($n: expr),+`: an identifier followed by one
or more comma-separated expressions consuming the rest. -/
def matchArm3 : List MTok → Option Form
  | .ident i :: rest =>
    match parseExprs rest with
    | some es => some (.predN i es)
    | none => none
  | _ => none

/-- `macro_rules` dispatch: try the three arms in source order, first match
wins; an invocation matching no arm is rejected at expansion time. -/
def dispatch (ts : List MTok) : Option Form :=
  match matchArm1 ts with
  | some f => some f
  | none =>
    match matchArm2 ts with
    | some f => some f
    | none => matchArm3 ts

/-- Modelled from the spec (§4.2): the comparison-form failure-message
template with an `<expected-src>` slot, i.e. the expected value rendered via
its literal source text. -/
def cmpMsgSpec (subjSrc subjDbg accName opSrc expSrc actual : String) : String :=
  "Expected `" ++ subjSrc ++ "`=" ++ subjDbg ++ " to have " ++ accName ++ " " ++
    opSrc ++ " " ++ expSrc ++ ", but " ++ accName ++ " = " ++ actual ++ "."

/-- Argument expressions instrumented to log their index (starting at `k`)
into a trace state each time they are evaluated. -/
def instrArgs {ν : Type} (k : Nat) : List ν → List (StE (List Nat) ν)
  | [] => []
  | v :: vs => (fun s => (v, s ++ [k])) :: instrArgs (k + 1) vs

/-- Side-effect-free expression: evaluates to `a` and leaves the state
unchanged. -/
def pureE {σ α : Type} (a : α) : StE σ α := fun s => (a, s)

/-- Concrete multi-argument invocation `assert_that!(v, contains <arg>)` whose
argument expression has an observable side effect: the state counts its
evaluations, and its value is the evaluation count at the time it runs (so
the first evaluation yields `0`, the second `1`).  The predicate fails
exactly when it receives `[0]`, i.e. the first evaluation's value. -/
def cexPredN : PredNForm Nat Unit Nat where
  subjSrc := "v"
  subj := fun s => ((), s)
  name := "contains"
  pred := fun _ vs s => (decide (vs ≠ [0]), s)
  args := [fun s => (s, s + 1)]
  dbg := fun _ => "[1]"
  tostr := toString

/-- Concrete comparison invocation `assert_that!(v, has len < <expected>)`
whose expected expression has an observable side effect: the state counts its
evaluations, and its value is the evaluation count at the time it runs.  The
accessor yields `5`, so the comparison `5 < 0` fails. -/
def cexCmp3 : CmpForm Nat Unit Nat where
  subjSrc := "v"
  subj := fun s => ((), s)
  accName := "len"
  acc := fun _ s => (5, s)
  opSrc := "<"
  op := fun a b => decide (a < b)
  expd := fun s => (s, s + 1)
  dbg := fun _ => "[5]"
  disp := toString

/-- Concrete comparison invocation `assert_that!(v, has len >= 1 + 1)`: the
expected expression is `1 + 1`, whose source-token text is `"1 + 1"` and
whose value is `2`.  The accessor yields `1`, so `1 >= 2` fails. -/
def cexCmp4 : CmpForm Nat Unit Nat where
  subjSrc := "v"
  subj := fun s => ((), s)
  accName := "len"
  acc := fun _ s => (1, s)
  opSrc := ">="
  op := fun a b => decide (a ≥ b)
  expd := fun s => (1 + 1, s)
  dbg := fun _ => "[1]"
  disp := toString

/-! ### Helper lemmas -/

lemma evalArgs_pure {σ ν : Type} (vals : List ν) (s : σ) :
    evalArgs (vals.map (fun v => pureE v)) s = (vals, s) := by
  induction vals with
  | nil => rfl
  | cons v vs ih => simp [evalArgs, pureE, ih]

lemma evalArgs_instrArgs {ν : Type} (vals : List ν) :
    ∀ (k : Nat) (t : List Nat),
      evalArgs (instrArgs k vals) t = (vals, t ++ List.range' k vals.length) := by
  induction vals with
  | nil => intro k t; simp [instrArgs, evalArgs]
  | cons v vs ih =>
    intro k t
    simp [instrArgs, evalArgs, ih, List.range'_succ]

/-! ### Claim theorems -/

/-- C2 counterexample: a `has` comparison form lacking an operator
(`assert_that!(v, has len)`) is not rejected at expansion time — it silently
matches the multi-argument predicate arm, with predicate name `has` and the
accessor name as its argument; moreover a well-formed comparison invocation
(`has len <= 2`) is matched by both the comparison arm's pattern and the
multi-argument predicate arm's pattern, so it is not the case that exactly
one form matches it. -/
theorem has_without_op_dispatch_cex :
    (dispatch [MTok.ident "has", MTok.ident "len"] ≠ none ∧
      dispatch [MTok.ident "has", MTok.ident "len"] =
        some (Form.predN "has" [MExpr.var "len"])) ∧
    (matchArm1 [MTok.ident "has", MTok.ident "len", MTok.oper "<=", MTok.litNat 2] =
        some (Form.cmp "len" "<=" (MExpr.lit 2)) ∧
      matchArm3 [MTok.ident "has", MTok.ident "len", MTok.oper "<=", MTok.litNat 2] =
        some (Form.predN "has" [MExpr.bin "<=" (MExpr.var "len") (MExpr.lit 2)])) := by
  refine ⟨⟨?_, ?_⟩, ?_, ?_⟩ <;> decide

/-- C2 amended: the three arm patterns are tried in source order and the
first match wins.  A well-formed comparison invocation resolves to the
comparison form (arm order resolves the overlap with the multi-argument
pattern); a `has` form lacking an operator is not rejected but resolves to
the multi-argument predicate form with predicate `has`; zero-argument and
multi-argument predicate invocations resolve to their forms; a token shape
matching no arm (e.g. `has len 2`, or an empty tail) is rejected at
expansion (construction) time, before any predicate is invoked. -/
theorem dispatch_first_match :
    dispatch [MTok.ident "has", MTok.ident "len", MTok.oper "<=", MTok.litNat 2] =
      some (Form.cmp "len" "<=" (MExpr.lit 2)) ∧
    dispatch [MTok.ident "has", MTok.ident "len"] =
      some (Form.predN "has" [MExpr.var "len"]) ∧
    dispatch [MTok.ident "is_empty"] = some (Form.pred0 "is_empty") ∧
    dispatch [MTok.ident "contains", MTok.litNat 2, MTok.comma, MTok.litNat 3] =
      some (Form.predN "contains" [MExpr.lit 2, MExpr.lit 3]) ∧
    dispatch [MTok.ident "has", MTok.ident "len", MTok.litNat 2] = none ∧
    dispatch ([] : List MTok) = none := by
  refine ⟨?_, ?_, ?_, ?_, ?_, ?_⟩ <;> decide

/-- C1 counterexample: in the multi-argument predicate form, a failing check
evaluates the argument expression twice, not once — the final state of
`cexPredN` counts `2` evaluations — and the value shown in the diagnostic
(`1`, the second evaluation's value) is not the value the predicate received
(`[0]`, from the first evaluation; the predicate fails only on `[0]`). -/
theorem multiArg_arg_reeval_cex :
    (runPredN cexPredN 0).2 = 2 ∧
    (runPredN cexPredN 0).1 = some "Expected `v`=[1] to contain 1." ∧
    ¬ (runPredN cexPredN 0).2 = 1 := by
  refine ⟨?_, ?_, ?_⟩ <;> decide

/-- C3 counterexample: in the comparison form, the expected-value expression
is re-evaluated on the failure path to produce the display: the final state
of `cexCmp3` counts `2` evaluations of the expected expression, and the
displayed expected value (`1`, from the second evaluation) differs from the
value used in the comparison (`0`, from the first). -/
theorem expected_reeval_cex :
    (runCmp cexCmp3 0).2 = 2 ∧
    (runCmp cexCmp3 0).1 = some "Expected `v`=[5] to have len < 1, but len = 5." ∧
    ¬ (runCmp cexCmp3 0).2 = 1 := by
  refine ⟨?_, ?_, ?_⟩ <;> decide

/-- C4 counterexample: for the failing check `assert_that!(v, has len >= 1 + 1)`
the produced message renders the expected value's Display rendering (`2`),
not the expected expression's source-token text (`1 + 1`), so the message
does not match the spec's template with `<expected-src>` substituted. -/
theorem cmp_msg_expected_src_cex :
    (runCmp cexCmp4 0).1 = some "Expected `v`=[1] to have len >= 2, but len = 1." ∧
    ¬ (runCmp cexCmp4 0).1 = some (cmpMsgSpec "v" "[1]" "len" ">=" "1 + 1" "1") := by
  refine ⟨?_, ?_⟩ <;> decide

/-- C1 amended: in the multi-argument predicate form, each argument
expression is evaluated exactly once (in order) when the check passes; when
the check fails, each argument expression is evaluated a second time, in
order, to produce its display, so side effects of every argument occur twice
on a failing check.  With the arguments instrumented to log their index on
every evaluation, the final trace is one pass over the indices on success
and two passes on failure. -/
theorem multiArg_arg_eval_trace (α ν : Type) (v : α) (pN : α → List ν → Bool)
    (vals : List ν) (subjSrc name : String) (dbgF : α → String) (tostrF : ν → String) :
    runPredN { subjSrc := subjSrc, subj := pureE v, name := name,
               pred := fun a vs => pureE (pN a vs), args := instrArgs 0 vals,
               dbg := dbgF, tostr := tostrF } [] =
      (if pN v vals then (none, List.range vals.length)
       else
        (some ("Expected `" ++ subjSrc ++ "`=" ++ dbgF v ++ " to " ++
          strip_s name ++ " " ++ String.intercalate "," (vals.map tostrF) ++ "."),
         List.range vals.length ++ List.range vals.length)) := by
  cases h : pN v vals <;>
    simp [runPredN, pureE, evalArgs_instrArgs, List.range_eq_range', h]

/-- C3 amended: in the comparison form's failure message the accessor name
and the operator are rendered via their literal source-token text, but the
expected-value expression is re-evaluated on the failure path (two
evaluations in total, against one on the success path) and is rendered via
its value's Display conversion, not its source text. -/
theorem cmp_token_text_and_expected_reeval (α ν : Type) (c : Nat) (v : α)
    (accFn : α → ν) (opFn : ν → ν → Bool) (n : ν)
    (subjSrc accName opSrc : String) (dbgF : α → String) (dispF : ν → String) :
    runCmp { subjSrc := subjSrc, subj := pureE v, accName := accName,
             acc := fun a => pureE (accFn a), opSrc := opSrc, op := opFn,
             expd := fun s => (n, s + 1), dbg := dbgF, disp := dispF } c =
      (if opFn (accFn v) n then (none, c + 1)
       else
        (some ("Expected `" ++ subjSrc ++ "`=" ++ dbgF v ++ " to have " ++
          accName ++ " " ++ opSrc ++ " " ++ dispF n ++ ", but " ++
          accName ++ " = " ++ dispF (accFn v) ++ "."), c + 2)) := by
  cases h : opFn (accFn v) n <;> simp [runCmp, pureE, h]

/-- C4 amended: for every comparison-form check whose comparison evaluates
false, the produced message matches the spec's template with correct
substitution of the subject's source text, the subject's debug rendering,
the accessor name, the operator token and the actual accessor value, but
with the Display rendering of the (re-evaluated) expected value substituted
where the spec's template puts the expected-value source text. -/
theorem cmp_msg_template (σ α ν : Type) (s : σ) (v : α)
    (accFn : α → ν) (opFn : ν → ν → Bool) (n : ν)
    (subjSrc accName opSrc : String) (dbgF : α → String) (dispF : ν → String) :
    runCmp { subjSrc := subjSrc, subj := pureE v, accName := accName,
             acc := fun a => pureE (accFn a), opSrc := opSrc, op := opFn,
             expd := pureE n, dbg := dbgF, disp := dispF } s =
      ((if opFn (accFn v) n then none
        else some (cmpMsgSpec subjSrc (dbgF v) accName opSrc (dispF n)
          (dispF (accFn v)))), s) := by
  cases h : opFn (accFn v) n <;> simp [runCmp, pureE, cmpMsgSpec, h]

/-- C5: every failing multi-argument predicate check produces exactly the
message ``Expected `<subject-src>`=<subject-debug> to <verb>
<arg1-display>,<arg2-display>,….`` where the verb is the predicate name with
a single trailing `s` stripped if present (`strip_s`), and the argument
values are rendered via their Display/to-string conversion and joined with a
comma and no separating space. -/
theorem multiArg_msg_template (σ α ν : Type) (s : σ) (v : α) (pN : α → List ν → Bool)
    (vals : List ν) (subjSrc name : String) (dbgF : α → String) (tostrF : ν → String) :
    runPredN { subjSrc := subjSrc, subj := pureE v, name := name,
               pred := fun a vs => pureE (pN a vs), args := vals.map (fun x => pureE x),
               dbg := dbgF, tostr := tostrF } s =
      ((if pN v vals then none
        else some ("Expected `" ++ subjSrc ++ "`=" ++ dbgF v ++ " to " ++
          strip_s name ++ " " ++ String.intercalate "," (vals.map tostrF) ++ ".")), s) := by
  cases h : pN v vals <;> simp [runPredN, pureE, evalArgs_pure, h]

/-- C6: in every check form the result is a failure carrying a message
exactly when the pass condition evaluates false; when the condition holds,
no failure is signalled and no message is constructed (and, for
side-effect-free components, the state is untouched). -/
theorem fail_iff_condition_false (σ α ν : Type) (s : σ) (v : α)
    (accFn : α → ν) (opFn : ν → ν → Bool) (n : ν)
    (p0 : α → Bool) (pN : α → List ν → Bool) (vals : List ν)
    (subjSrc accName opSrc name0 nameN : String)
    (dbgF : α → String) (dispF : ν → String) (tostrF : ν → String) :
    (((runCmp { subjSrc := subjSrc, subj := pureE v, accName := accName,
                acc := fun a => pureE (accFn a), opSrc := opSrc, op := opFn,
                expd := pureE n, dbg := dbgF, disp := dispF } s).1 = none ↔
        opFn (accFn v) n = true) ∧
      (runCmp { subjSrc := subjSrc, subj := pureE v, accName := accName,
                acc := fun a => pureE (accFn a), opSrc := opSrc, op := opFn,
                expd := pureE n, dbg := dbgF, disp := dispF } s).2 = s) ∧
    (((runPred0 { subjSrc := subjSrc, subj := pureE v, name := name0,
                  pred := fun a => pureE (p0 a), dbg := dbgF } s).1 = none ↔
        p0 v = true) ∧
      (runPred0 { subjSrc := subjSrc, subj := pureE v, name := name0,
                  pred := fun a => pureE (p0 a), dbg := dbgF } s).2 = s) ∧
    (((runPredN { subjSrc := subjSrc, subj := pureE v, name := nameN,
                  pred := fun a vs => pureE (pN a vs),
                  args := vals.map (fun x => pureE x),
                  dbg := dbgF, tostr := tostrF } s).1 = none ↔
        pN v vals = true) ∧
      (runPredN { subjSrc := subjSrc, subj := pureE v, name := nameN,
                  pred := fun a vs => pureE (pN a vs),
                  args := vals.map (fun x => pureE x),
                  dbg := dbgF, tostr := tostrF } s).2 = s) := by
  refine ⟨⟨?_, ?_⟩, ⟨?_, ?_⟩, ⟨?_, ?_⟩⟩
  · cases h : opFn (accFn v) n <;> simp [runCmp, pureE, h]
  · cases h : opFn (accFn v) n <;> simp [runCmp, pureE, h]
  · cases h : p0 v <;> simp [runPred0, pureE, h]
  · cases h : p0 v <;> simp [runPred0, pureE, h]
  · cases h : pN v vals <;> simp [runPredN, pureE, evalArgs_pure, h]
  · cases h : pN v vals <;> simp [runPredN, pureE, evalArgs_pure, h]

/-- C7: in every check form the accessor or predicate method is invoked on
the subject exactly once per assertion evaluation, passing or failing: with
the method instrumented to bump a counter on each invocation, the final
counter is `c + 1` in all three forms.  In the comparison form the actual
value shown in a failure message is the result `g c` of that single (first)
invocation, not the result of any later call. -/
theorem method_invoked_once (α ν : Type) (c : Nat) (v : α)
    (g : Nat → ν) (opFn : ν → ν → Bool) (n : ν) (b : Bool)
    (pN : α → List ν → Bool) (vals : List ν)
    (subjSrc accName opSrc name0 nameN : String)
    (dbgF : α → String) (dispF : ν → String) (tostrF : ν → String) :
    (runCmp { subjSrc := subjSrc, subj := pureE v, accName := accName,
              acc := fun _ s => (g s, s + 1), opSrc := opSrc, op := opFn,
              expd := pureE n, dbg := dbgF, disp := dispF } c).2 = c + 1 ∧
    (runCmp { subjSrc := subjSrc, subj := pureE v, accName := accName,
              acc := fun _ s => (g s, s + 1), opSrc := opSrc, op := opFn,
              expd := pureE n, dbg := dbgF, disp := dispF } c).1 =
      (if opFn (g c) n then none
       else some ("Expected `" ++ subjSrc ++ "`=" ++ dbgF v ++ " to have " ++
         accName ++ " " ++ opSrc ++ " " ++ dispF n ++ ", but " ++
         accName ++ " = " ++ dispF (g c) ++ ".")) ∧
    (runPred0 { subjSrc := subjSrc, subj := pureE v, name := name0,
                pred := fun _ s => (b, s + 1), dbg := dbgF } c).2 = c + 1 ∧
    (runPredN { subjSrc := subjSrc, subj := pureE v, name := nameN,
                pred := fun a vs s => (pN a vs, s + 1),
                args := vals.map (fun x => pureE x),
                dbg := dbgF, tostr := tostrF } c).2 = c + 1 := by
  refine ⟨?_, ?_, ?_, ?_⟩
  · cases h : opFn (g c) n <;> simp [runCmp, pureE, h]
  · cases h : opFn (g c) n <;> simp [runCmp, pureE, h]
  · cases h : b <;> simp [runPred0, pureE, h]
  · cases h : pN v vals <;> simp [runPredN, pureE, evalArgs_pure, h]

/-- C8: the zero-argument form's displayed property name strips exactly a
leading `is_` prefix (`strip_is ("is_" ++ r) = r`) and leaves any name
without that prefix unchanged; the transform is display-only — replacing the
method name changes neither whether the check fails nor the side effects
performed, only the message text. -/
theorem strip_is_display_only :
    (∀ r : String, strip_is ("is_" ++ r) = r) ∧
    (∀ name : String, "is_".data.isPrefixOf name.data = false → strip_is name = name) ∧
    (∀ (σ α : Type) (f : Pred0Form σ α) (n0 : String) (s : σ),
      ((runPred0 { f with name := n0 } s).1 = none ↔ (runPred0 f s).1 = none) ∧
      (runPred0 { f with name := n0 } s).2 = (runPred0 f s).2) := by
  refine ⟨?_, ?_, ?_⟩
  · intro r
    have hp : ("is_".data).isPrefixOf ("is_" ++ r).data = true := by
      rw [String.data_append, List.isPrefixOf_iff_prefix]
      exact List.prefix_append _ _
    simp only [strip_is, hp, if_true]
    rw [String.data_append]
    rfl
  · intro name h
    simp [strip_is, h]
  · intro σ α f n0 s
    cases h : (f.pred (f.subj s).1 (f.subj s).2).1 <;> simp [runPred0, h]

/-- Witness for C8 at concrete inputs: `is_empty` displays as `empty`
(prefix stripped) and `set`, which lacks the prefix, is unchanged. -/
theorem strip_is_display_only_witness :
    strip_is "is_empty" = "empty" ∧
    ("is_".data.isPrefixOf "set".data = false) ∧ strip_is "set" = "set" := by
  refine ⟨?_, by decide, strip_is_display_only.2.1 "set" (by decide)⟩
  exact strip_is_display_only.1 "empty"

/-- C9: the multi-argument form's displayed verb strips exactly one trailing
`s` when the predicate name ends in `s` (`strip_s (r ++ "s") = r`, and in
particular a name ending in `ss` loses only its final `s`), and leaves a
name not ending in `s` unchanged. -/
theorem strip_s_single_char :
    (∀ r : String, strip_s (r ++ "s") = r) ∧
    (∀ name : String, name.data.getLast? ≠ some 's' → strip_s name = name) ∧
    (∀ r : String, strip_s ((r ++ "s") ++ "s") = r ++ "s") := by
  have h1 : ∀ r : String, strip_s (r ++ "s") = r := by
    intro r
    have hl : (r ++ "s").data.getLast? = some 's' := by rw [String.data_append]; simp
    have hd : (r ++ "s").data.dropLast = r.data := by rw [String.data_append]; simp
    simp [strip_s, hl, hd]
  refine ⟨h1, ?_, fun r => h1 (r ++ "s")⟩
  intro name h
  simp [strip_s, h]

/-- Witness for C9 at concrete inputs: `contains` displays as `contain`
(one trailing `s` stripped) and `contain`, not ending in `s`, is
unchanged. -/
theorem strip_s_single_char_witness :
    strip_s "contains" = "contain" ∧
    ("contain".data.getLast? ≠ some 's') ∧ strip_s "contain" = "contain" := by
  refine ⟨?_, by decide, strip_s_single_char.2.1 "contain" (by decide)⟩
  exact strip_s_single_char.1 "contain"

/-- C10: in every check form the subject expression is evaluated once (as
the receiver of the accessor/predicate call) when the check passes, and a
second time — to produce its Debug rendering in the message — when the check
fails: with the subject instrumented to bump a counter on each evaluation,
the final counter is `c + 1` on success and `c + 2` on failure, in all three
forms. -/
theorem subject_evaluated_twice_on_failure (α ν : Type) (c : Nat) (v : α)
    (accFn : α → ν) (opFn : ν → ν → Bool) (n : ν)
    (p0 : α → Bool) (pN : α → List ν → Bool) (vals : List ν)
    (subjSrc accName opSrc name0 nameN : String)
    (dbgF : α → String) (dispF : ν → String) (tostrF : ν → String) :
    (runCmp { subjSrc := subjSrc, subj := fun s => (v, s + 1), accName := accName,
              acc := fun a => pureE (accFn a), opSrc := opSrc, op := opFn,
              expd := pureE n, dbg := dbgF, disp := dispF } c).2 =
      (if opFn (accFn v) n then c + 1 else c + 2) ∧
    (runPred0 { subjSrc := subjSrc, subj := fun s => (v, s + 1), name := name0,
                pred := fun a => pureE (p0 a), dbg := dbgF } c).2 =
      (if p0 v then c + 1 else c + 2) ∧
    (runPredN { subjSrc := subjSrc, subj := fun s => (v, s + 1), name := nameN,
                pred := fun a vs => pureE (pN a vs),
                args := vals.map (fun x => pureE x),
                dbg := dbgF, tostr := tostrF } c).2 =
      (if pN v vals then c + 1 else c + 2) := by
  refine ⟨?_, ?_, ?_⟩
  · cases h : opFn (accFn v) n <;> simp [runCmp, pureE, h]
  · cases h : p0 v <;> simp [runPred0, pureE, h]
  · cases h : pN v vals <;> simp [runPredN, pureE, evalArgs_pure, h]

end Doubts
